import Mathlib

/-!
Shallow embedding of the warranty resolution engine of the
lenovo-warranty-checker repository (src/services/warranty-service.ts,
class LenovoWarrantyService), together with the routes' data model
(src/types.ts).

External effects are modelled as explicit inputs:
- the structured-source attempt (axios.post inside tryApiMethod) is an
  oracle of type String → Except String LenovoApiResponse, where
  Except.error covers every thrown failure (network failure, timeout,
  non-2xx HTTP status — axios throws on those) and Except.ok is a
  successfully delivered response body;
- the browser/scrape pipeline (everything in scrapeWarrantyInfo up to and
  including page.evaluate) is an oracle String → Except String ScrapedData,
  where Except.error covers every thrown failure (browser launch failure,
  missing input field or submit button, navigation timeout) and Except.ok
  carries the fields extracted by page.evaluate (extractText/extractDate
  return "" when nothing is found, hence plain String fields);
- JavaScript Date parsing (new Date(s).getTime()) is an oracle
  dateValue : String → Int giving the epoch-millisecond value of a date
  string, and today : Int is the current epoch-millisecond time.

The cache (node-cache with stdTTL 3600) is modelled as an association
list; all statements are about behaviour within the TTL window, so entry
expiry is not modelled.  Promise.all over a chunk is modelled as the
in-order sequential linearization of the chunk's lookups (result order is
the map order regardless of completion order, which is what Promise.all
guarantees); the cross-chunk structure (await all lookups of a chunk, then
await delay(2000)) is recorded in an explicit effect trace.
-/

namespace LenovoWarrantyChecker

/-- Warranty status values, from the union type of WarrantyInfo.warrantyStatus
in src/types.ts: 'Active' | 'Expired' | 'Expiring Soon' | 'Error' | 'Not Found'. -/
inductive WarrantyStatus where
  | active
  | expired
  | expiringSoon
  | error
  | notFound
deriving DecidableEq, Repr

/-- The WarrantyInfo interface of src/types.ts.  Optional fields are Options;
daysRemaining is an integer (Math.ceil of a real quotient). -/
structure WarrantyInfo where
  serialNumber : String
  productName : Option String := none
  productType : Option String := none
  warrantyStartDate : Option String := none
  warrantyEndDate : Option String := none
  daysRemaining : Option Int := none
  warrantyStatus : WarrantyStatus
  warrantyType : Option String := none
  errorMessage : Option String := none
deriving DecidableEq, Repr

/-- The warranty sub-object of LenovoApiResponse.data in src/types.ts. -/
structure ApiWarranty where
  startDate : String
  endDate : String
  type : String
  status : String
deriving DecidableEq, Repr

/-- The data sub-object of LenovoApiResponse in src/types.ts; both fields
are optional there. -/
structure ApiData where
  product : Option String := none
  warranty : Option ApiWarranty := none
deriving DecidableEq, Repr

/-- The LenovoApiResponse interface of src/types.ts. -/
structure LenovoApiResponse where
  status : String
  data : Option ApiData := none
  error : Option String := none
deriving DecidableEq, Repr

/-- The object returned by page.evaluate in scrapeWarrantyInfo: each field is
extractText/extractDate output, which is the empty string when the selector
matches nothing or no date-shaped token is present. -/
structure ScrapedData where
  productName : String := ""
  productType : String := ""
  warrantyStartDate : String := ""
  warrantyEndDate : String := ""
  warrantyType : String := ""
  warrantyStatus : String := ""
  errorMessage : String := ""
deriving DecidableEq, Repr

/-- Milliseconds per day: the divisor 1000 * 60 * 60 * 24 used in
daysRemaining computations. -/
def msPerDay : Int := 1000 * 60 * 60 * 24

/-- Ceiling of the exact rational a / b for b > 0, as computed by
Math.ceil on the real quotient.  On Int, / is Euclidean (floor) division,
so the ceiling is the negated floor division of the negation. -/
def ceilDiv (a b : Int) : Int := -((-a) / b)

/-- Math.ceil((endDate.getTime() - today.getTime()) / (1000 * 60 * 60 * 24)),
shared by scrapeWarrantyInfo and parseApiResponse. -/
def computeDaysRemaining (endMs today : Int) : Int := ceilDiv (endMs - today) msPerDay

/-- The three-way classification applied to a computed daysRemaining in both
scrapeWarrantyInfo and parseApiResponse: negative → Expired, at most 30 →
Expiring Soon, otherwise Active. -/
def statusOfDays (days : Int) : WarrantyStatus :=
  if days < 0 then .expired
  else if days ≤ 30 then .expiringSoon
  else .active

/-- Models `value || undefined` on an extractText result: the empty string is
falsy, so it becomes undefined (none). -/
def strOpt (s : String) : Option String :=
  if s = "" then none else some s

/-- The pure tail of scrapeWarrantyInfo (lines after page.evaluate): status
derivation from the extracted fields and assembly of the WarrantyInfo record.
If a warranty end date string was extracted, daysRemaining is computed and
classified; else an extracted error message gives status Error, and
otherwise status Not Found. -/
def buildScrapeRecord (serialNumber : String) (d : ScrapedData)
    (dateValue : String → Int) (today : Int) : WarrantyInfo :=
  if d.warrantyEndDate ≠ "" then
    let days := computeDaysRemaining (dateValue d.warrantyEndDate) today
    { serialNumber := serialNumber
      productName := strOpt d.productName
      productType := strOpt d.productType
      warrantyStartDate := strOpt d.warrantyStartDate
      warrantyEndDate := strOpt d.warrantyEndDate
      daysRemaining := some days
      warrantyStatus := statusOfDays days
      warrantyType := strOpt d.warrantyType
      errorMessage := strOpt d.errorMessage }
  else
    { serialNumber := serialNumber
      productName := strOpt d.productName
      productType := strOpt d.productType
      warrantyStartDate := strOpt d.warrantyStartDate
      warrantyEndDate := none
      daysRemaining := none
      warrantyStatus := if d.errorMessage ≠ "" then .error else .notFound
      warrantyType := strOpt d.warrantyType
      errorMessage := strOpt d.errorMessage }

/-- scrapeWarrantyInfo as a whole: a thrown failure anywhere in the browser
pipeline propagates out (to checkSingleWarranty's catch); a successful
extraction is post-processed by the pure record assembly. -/
def scrapeWarrantyInfo (serialNumber : String)
    (outcome : Except String ScrapedData)
    (dateValue : String → Int) (today : Int) : Except String WarrantyInfo :=
  match outcome with
  | .error msg => .error msg
  | .ok d => .ok (buildScrapeRecord serialNumber d dateValue today)

/-- parseApiResponse: a response without data.warranty yields a bare record
with status Not Found; otherwise daysRemaining is computed from
warranty.endDate and classified exactly as in the scrape path. -/
def parseApiResponse (serialNumber : String) (data : LenovoApiResponse)
    (dateValue : String → Int) (today : Int) : WarrantyInfo :=
  match data.data with
  | none => { serialNumber := serialNumber, warrantyStatus := .notFound }
  | some dd =>
    match dd.warranty with
    | none => { serialNumber := serialNumber, warrantyStatus := .notFound }
    | some w =>
      let days := computeDaysRemaining (dateValue w.endDate) today
      { serialNumber := serialNumber
        productName := dd.product
        warrantyStartDate := some w.startDate
        warrantyEndDate := some w.endDate
        daysRemaining := some days
        warrantyStatus := statusOfDays days
        warrantyType := some w.type }

/-- tryApiMethod: every thrown failure of the POST is caught and becomes
null; a delivered response yields parseApiResponse's record exactly when
its status field is 'success' and its data field is present (truthy), and
null otherwise. -/
def tryApiMethod (serialNumber : String)
    (outcome : Except String LenovoApiResponse)
    (dateValue : String → Int) (today : Int) : Option WarrantyInfo :=
  match outcome with
  | .error _ => none
  | .ok data =>
    if data.status = "success" ∧ data.data.isSome then
      some (parseApiResponse serialNumber data dateValue today)
    else
      none

/-- The cache (node-cache instance): an association list from string keys to
records; set is modelled by consing, so lookup sees the newest binding. -/
abbrev Cache := List (String × WarrantyInfo)

/-- cache.get: the newest binding for the key, if any. -/
def cacheGet (c : Cache) (k : String) : Option WarrantyInfo :=
  match c with
  | [] => none
  | (k', v) :: rest => if k' = k then some v else cacheGet rest k

/-- cache.set with the default TTL. -/
def cacheSet (c : Cache) (k : String) (v : WarrantyInfo) : Cache :=
  (k, v) :: c

/-- The cache key for a serial: the template literal warranty_ followed by the
serial number. -/
def warrantyKey (serialNumber : String) : String :=
  "warranty_" ++ serialNumber

/-- One invocation of a source client, used to instrument which external
clients a lookup touched. -/
inductive SourceCall where
  | apiCall (serialNumber : String)
  | scrapeCall (serialNumber : String)
deriving DecidableEq, Repr

/-- The external environment of the engine: the two source-client oracles and
the Date semantics (see the module docstring). -/
structure Env where
  api : String → Except String LenovoApiResponse
  scrape : String → Except String ScrapedData
  dateValue : String → Int
  today : Int

/-- Result of one checkSingleWarranty call: the returned record, the cache
state after the call, and the source clients invoked during the call. -/
structure SingleResult where
  record : WarrantyInfo
  cache : Cache
  calls : List SourceCall
deriving Repr

/-- checkSingleWarranty: cache hit returns the cached record untouched;
otherwise the structured attempt runs first (tryApiMethod never throws —
it catches internally), a non-null result is cached and returned; a null
result falls through to the scrape, whose record is cached and returned;
a throw from the scrape pipeline is caught and converted to a record with
status Error and the exception's message, without touching the cache. -/
def checkSingleWarranty (env : Env) (cache : Cache) (serialNumber : String) :
    SingleResult :=
  let cacheKey := warrantyKey serialNumber
  match cacheGet cache cacheKey with
  | some cached => ⟨cached, cache, []⟩
  | none =>
    match tryApiMethod serialNumber (env.api serialNumber) env.dateValue env.today with
    | some apiResult =>
      ⟨apiResult, cacheSet cache cacheKey apiResult, [.apiCall serialNumber]⟩
    | none =>
      match scrapeWarrantyInfo serialNumber (env.scrape serialNumber) env.dateValue env.today with
      | .ok scrapingResult =>
        ⟨scrapingResult, cacheSet cache cacheKey scrapingResult,
          [.apiCall serialNumber, .scrapeCall serialNumber]⟩
      | .error msg =>
        ⟨{ serialNumber := serialNumber, warrantyStatus := .error,
           errorMessage := some msg },
          cache, [.apiCall serialNumber, .scrapeCall serialNumber]⟩

/-- Loop body of chunkArray, made structurally recursive on a fuel argument
so that it reduces definitionally: each iteration pushes slice(i, i + size)
and advances i by size, consuming at least one element, so the input length
bounds the number of iterations. -/
def chunkArrayGo : Nat → List α → Nat → List (List α)
  | _, _, 0 => []
  | _, [], _ + 1 => []
  | 0, _ :: _, _ + 1 => []
  | fuel + 1, x :: xs, n + 1 =>
    (x :: xs).take (n + 1) :: chunkArrayGo fuel ((x :: xs).drop (n + 1)) (n + 1)

/-- chunkArray: successive slice(i, i + size) pieces of the array, in order.
The service only ever calls it with size 10; the size-zero equation of the
loop body is a defensive base case (the source loop would not advance
there). -/
def chunkArray (l : List α) (size : Nat) : List (List α) :=
  chunkArrayGo l.length l size

/-- Observable steps of a batch run: a checkSingleWarranty invocation for a
serial, or an await of delay(ms). -/
inductive Effect where
  | lookup (serialNumber : String)
  | delay (ms : Nat)
deriving DecidableEq, Repr

/-- Result of a batch run: records in order, final cache, and the effect
trace (lookups and pacing delays in program order). -/
structure BatchResult where
  records : List WarrantyInfo
  cache : Cache
  trace : List Effect
deriving Repr

/-- Sequential in-order resolution of a list of serials, threading the cache:
the linearization of Promise.all(chunk.map(serial => checkSingleWarranty)). -/
def resolveList (env : Env) : Cache → List String → List WarrantyInfo × Cache
  | cache, [] => ([], cache)
  | cache, s :: rest =>
    let r := checkSingleWarranty env cache s
    let rc := resolveList env r.cache rest
    (r.record :: rc.1, rc.2)

/-- The chunk loop of checkWarrantyBatch: for each chunk, await all its
lookups (results pushed in chunk order), then await delay(2000). -/
def runChunks (env : Env) : Cache → List (List String) → BatchResult
  | cache, [] => ⟨[], cache, []⟩
  | cache, c :: cs =>
    let rc := resolveList env cache c
    let rest := runChunks env rc.2 cs
    ⟨rc.1 ++ rest.records, rest.cache,
      c.map Effect.lookup ++ Effect.delay 2000 :: rest.trace⟩

/-- checkWarrantyBatch: chunk the serials into pieces of 10 and run the
chunk loop. -/
def checkWarrantyBatch (env : Env) (cache : Cache) (serials : List String) :
    BatchResult :=
  runChunks env cache (chunkArray serials 10)

/-- Cache well-formedness: every stored record sits under the cache key built
from its own serial number.  It holds for the empty cache the service starts
with and is preserved by every lookup, since the only writes are
cache.set(warranty_S, record-for-S). -/
def cacheWF (c : Cache) : Prop :=
  ∀ k r, cacheGet c k = some r → k = warrantyKey r.serialNumber

/-- Whether the scrape pipeline would throw for this serial in this
environment. -/
def scrapeThrows (env : Env) (S : String) : Bool :=
  match env.scrape S with
  | .error _ => true
  | .ok _ => false

/-- Whether a checkSingleWarranty call on this cache state ends in the catch
block: the serial misses the cache, the structured attempt yields null, and
the scrape pipeline throws. -/
def firstCallCatches (env : Env) (cache : Cache) (S : String) : Bool :=
  (cacheGet cache (warrantyKey S)).isNone &&
  (tryApiMethod S (env.api S) env.dateValue env.today).isNone &&
  scrapeThrows env S

/-- Concrete test environment in which both source clients fail: the
structured endpoint is unreachable and the browser pipeline throws. -/
def envDown : Env :=
  { api := fun _ => .error "api down"
    scrape := fun _ => .error "browser crash"
    dateValue := fun _ => 0
    today := 0 }

/-- Concrete test environment in which the structured endpoint is
unreachable and every scrape succeeds with an empty extraction. -/
def envOk : Env :=
  { api := fun _ => .error "api down"
    scrape := fun _ => .ok {}
    dateValue := fun _ => 0
    today := 0 }

/-- Concrete test environment in which the structured endpoint is
unreachable, the browser pipeline throws for the serial BBB222 only, and
every other scrape extracts an end date 45 days out. -/
def envMixed : Env :=
  { api := fun _ => .error "api down"
    scrape := fun s =>
      if s = "BBB222" then .error "browser crash"
      else .ok { warrantyEndDate := "2026-01-01" }
    dateValue := fun _ => 86400000 * 45
    today := 0 }

/-! Helper lemmas. -/

theorem warrantyKey_inj {a b : String} (h : warrantyKey a = warrantyKey b) : a = b := by
  have hd : (warrantyKey a).data = (warrantyKey b).data := congrArg String.data h
  simp only [warrantyKey, String.data_append] at hd
  exact String.ext (List.append_cancel_left hd)

theorem computeDaysRemaining_eq_ceil (endMs today : Int) :
    computeDaysRemaining endMs today = ⌈((endMs - today : Int) : ℚ) / (86400000 : ℚ)⌉ := by
  have h := Rat.floor_intCast_div_natCast (-(endMs - today)) 86400000
  have hcast : ((endMs - today : Int) : ℚ) / (86400000 : ℚ) =
      -(((-(endMs - today) : Int) : ℚ) / ((86400000 : Nat) : ℚ)) := by
    push_cast
    ring
  rw [hcast, Int.ceil_neg, h]
  show ceilDiv (endMs - today) msPerDay = _
  unfold ceilDiv msPerDay
  norm_num

theorem cacheGet_set_self (c : Cache) (k : String) (v : WarrantyInfo) :
    cacheGet (cacheSet c k v) k = some v := by
  simp [cacheGet, cacheSet]

theorem cacheGet_set_ne (c : Cache) {k k' : String} (v : WarrantyInfo) (h : k' ≠ k) :
    cacheGet (cacheSet c k' v) k = cacheGet c k := by
  simp [cacheGet, cacheSet, h]

theorem cacheWF_nil : cacheWF [] := by
  intro k r h
  simp [cacheGet] at h

theorem cacheWF_set {c : Cache} (hc : cacheWF c) (v : WarrantyInfo) :
    cacheWF (cacheSet c (warrantyKey v.serialNumber) v) := by
  intro k r h
  by_cases hk : warrantyKey v.serialNumber = k
  · subst hk
    rw [cacheGet_set_self] at h
    cases h
    rfl
  · rw [cacheGet_set_ne _ _ hk] at h
    exact hc k r h

theorem buildScrapeRecord_serialNumber (s : String) (d : ScrapedData)
    (dv : String → Int) (t : Int) :
    (buildScrapeRecord s d dv t).serialNumber = s := by
  unfold buildScrapeRecord
  split <;> rfl

theorem parseApiResponse_serialNumber (s : String) (data : LenovoApiResponse)
    (dv : String → Int) (t : Int) :
    (parseApiResponse s data dv t).serialNumber = s := by
  unfold parseApiResponse
  obtain ⟨st, dta, er⟩ := data
  cases dta with
  | none => rfl
  | some dd =>
    obtain ⟨prod, war⟩ := dd
    cases war <;> rfl

theorem tryApiMethod_serialNumber {s : String} {o : Except String LenovoApiResponse}
    {dv : String → Int} {t : Int} {r : WarrantyInfo}
    (h : tryApiMethod s o dv t = some r) : r.serialNumber = s := by
  unfold tryApiMethod at h
  cases o with
  | error e => simp at h
  | ok data =>
    by_cases hc : data.status = "success" ∧ data.data.isSome
    · simp only [if_pos hc, Option.some.injEq] at h
      rw [← h]
      exact parseApiResponse_serialNumber s data dv t
    · simp [if_neg hc] at h

theorem checkSingleWarranty_hit (env : Env) {cache : Cache} {s : String}
    {r : WarrantyInfo} (h : cacheGet cache (warrantyKey s) = some r) :
    checkSingleWarranty env cache s = ⟨r, cache, []⟩ := by
  simp [checkSingleWarranty, h]

theorem checkSingleWarranty_api {env : Env} {cache : Cache} {s : String}
    {r : WarrantyInfo}
    (hm : cacheGet cache (warrantyKey s) = none)
    (ha : tryApiMethod s (env.api s) env.dateValue env.today = some r) :
    checkSingleWarranty env cache s =
      ⟨r, cacheSet cache (warrantyKey s) r, [.apiCall s]⟩ := by
  simp [checkSingleWarranty, hm, ha]

theorem checkSingleWarranty_scrape_ok {env : Env} {cache : Cache} {s : String}
    {d : ScrapedData}
    (hm : cacheGet cache (warrantyKey s) = none)
    (ha : tryApiMethod s (env.api s) env.dateValue env.today = none)
    (hs : env.scrape s = .ok d) :
    checkSingleWarranty env cache s =
      ⟨buildScrapeRecord s d env.dateValue env.today,
       cacheSet cache (warrantyKey s) (buildScrapeRecord s d env.dateValue env.today),
       [.apiCall s, .scrapeCall s]⟩ := by
  simp [checkSingleWarranty, hm, ha, scrapeWarrantyInfo, hs]

theorem checkSingleWarranty_scrape_error {env : Env} {cache : Cache} {s : String}
    {msg : String}
    (hm : cacheGet cache (warrantyKey s) = none)
    (ha : tryApiMethod s (env.api s) env.dateValue env.today = none)
    (hs : env.scrape s = .error msg) :
    checkSingleWarranty env cache s =
      ⟨{ serialNumber := s, warrantyStatus := .error, errorMessage := some msg },
       cache, [.apiCall s, .scrapeCall s]⟩ := by
  simp [checkSingleWarranty, hm, ha, scrapeWarrantyInfo, hs]

theorem checkSingleWarranty_serialNumber (env : Env) {cache : Cache}
    (hwf : cacheWF cache) (s : String) :
    (checkSingleWarranty env cache s).record.serialNumber = s := by
  cases hm : cacheGet cache (warrantyKey s) with
  | some r =>
    rw [checkSingleWarranty_hit env hm]
    exact (warrantyKey_inj (hwf _ _ hm)).symm
  | none =>
    cases ha : tryApiMethod s (env.api s) env.dateValue env.today with
    | some r =>
      rw [checkSingleWarranty_api hm ha]
      exact tryApiMethod_serialNumber ha
    | none =>
      cases hs : env.scrape s with
      | ok d =>
        rw [checkSingleWarranty_scrape_ok hm ha hs]
        exact buildScrapeRecord_serialNumber s d env.dateValue env.today
      | error msg =>
        rw [checkSingleWarranty_scrape_error hm ha hs]

theorem checkSingleWarranty_wf (env : Env) {cache : Cache}
    (hwf : cacheWF cache) (s : String) :
    cacheWF (checkSingleWarranty env cache s).cache := by
  cases hm : cacheGet cache (warrantyKey s) with
  | some r =>
    rw [checkSingleWarranty_hit env hm]
    exact hwf
  | none =>
    cases ha : tryApiMethod s (env.api s) env.dateValue env.today with
    | some r =>
      rw [checkSingleWarranty_api hm ha]
      have hr := tryApiMethod_serialNumber ha
      have := cacheWF_set hwf r
      rwa [hr] at this
    | none =>
      cases hs : env.scrape s with
      | ok d =>
        rw [checkSingleWarranty_scrape_ok hm ha hs]
        have hr := buildScrapeRecord_serialNumber s d env.dateValue env.today
        have := cacheWF_set hwf (buildScrapeRecord s d env.dateValue env.today)
        rwa [hr] at this
      | error msg =>
        rw [checkSingleWarranty_scrape_error hm ha hs]
        exact hwf

theorem checkSingleWarranty_cacheGet_ne (env : Env) (cache : Cache)
    {s k : String} (h : warrantyKey s ≠ k) :
    cacheGet (checkSingleWarranty env cache s).cache k = cacheGet cache k := by
  cases hm : cacheGet cache (warrantyKey s) with
  | some r =>
    rw [checkSingleWarranty_hit env hm]
  | none =>
    cases ha : tryApiMethod s (env.api s) env.dateValue env.today with
    | some r =>
      rw [checkSingleWarranty_api hm ha]
      exact cacheGet_set_ne cache r h
    | none =>
      cases hs : env.scrape s with
      | ok d =>
        rw [checkSingleWarranty_scrape_ok hm ha hs]
        exact cacheGet_set_ne cache _ h
      | error msg =>
        rw [checkSingleWarranty_scrape_error hm ha hs]

theorem resolveList_length (env : Env) (l : List String) :
    ∀ cache : Cache, (resolveList env cache l).1.length = l.length := by
  induction l with
  | nil => intro cache; rfl
  | cons s rest ih =>
    intro cache
    simp [resolveList, ih]

theorem resolveList_append (env : Env) (l1 l2 : List String) :
    ∀ cache : Cache,
      resolveList env cache (l1 ++ l2) =
        ((resolveList env cache l1).1 ++
           (resolveList env (resolveList env cache l1).2 l2).1,
         (resolveList env (resolveList env cache l1).2 l2).2) := by
  induction l1 with
  | nil => intro cache; simp [resolveList]
  | cons s rest ih =>
    intro cache
    simp [resolveList, ih]

theorem resolveList_wf (env : Env) (l : List String) :
    ∀ {cache : Cache}, cacheWF cache → cacheWF (resolveList env cache l).2 := by
  induction l with
  | nil => intro cache hwf; exact hwf
  | cons s rest ih =>
    intro cache hwf
    exact ih (checkSingleWarranty_wf env hwf s)

theorem resolveList_get?_serialNumber (env : Env) (l : List String) :
    ∀ (cache : Cache), cacheWF cache → ∀ (i : Nat) (r : WarrantyInfo) (s' : String),
      (resolveList env cache l).1.get? i = some r → l.get? i = some s' →
      r.serialNumber = s' := by
  induction l with
  | nil =>
    intro cache hwf i r s' h1 h2
    simp at h2
  | cons s rest ih =>
    intro cache hwf i r s' h1 h2
    cases i with
    | zero =>
      simp [resolveList] at h1
      simp at h2
      rw [← h1, ← h2]
      exact checkSingleWarranty_serialNumber env hwf s
    | succ n =>
      simp only [resolveList, List.get?_cons_succ] at h1 h2
      exact ih _ (checkSingleWarranty_wf env hwf s) n r s' h1 h2

theorem resolveList_cacheGet_ne (env : Env) (l : List String) {k : String}
    (h : ∀ s ∈ l, warrantyKey s ≠ k) :
    ∀ cache : Cache, cacheGet (resolveList env cache l).2 k = cacheGet cache k := by
  induction l with
  | nil => intro cache; rfl
  | cons s rest ih =>
    intro cache
    have hs : warrantyKey s ≠ k := h s (List.mem_cons_self s rest)
    have hrest : ∀ s' ∈ rest, warrantyKey s' ≠ k :=
      fun s' hm => h s' (List.mem_cons_of_mem s hm)
    calc cacheGet (resolveList env (checkSingleWarranty env cache s).cache rest).2 k
        = cacheGet (checkSingleWarranty env cache s).cache k := ih hrest _
      _ = cacheGet cache k := checkSingleWarranty_cacheGet_ne env cache hs

theorem chunkArrayGo_zero (fuel : Nat) (l : List α) : chunkArrayGo fuel l 0 = [] := by
  cases fuel <;> cases l <;> rfl

theorem chunkArrayGo_nil (fuel n : Nat) : chunkArrayGo fuel ([] : List α) (n + 1) = [] := by
  cases fuel <;> rfl

theorem chunkArrayGo_congr :
    ∀ (fuel₁ : Nat) (l : List α) (fuel₂ n : Nat),
      l.length ≤ fuel₁ → l.length ≤ fuel₂ →
      chunkArrayGo fuel₁ l n = chunkArrayGo fuel₂ l n := by
  intro fuel₁
  induction fuel₁ with
  | zero =>
    intro l fuel₂ n h1 h2
    have : l = [] := List.eq_nil_of_length_eq_zero (Nat.le_zero.mp h1)
    subst this
    cases n with
    | zero => rw [chunkArrayGo_zero, chunkArrayGo_zero]
    | succ m => rw [chunkArrayGo_nil, chunkArrayGo_nil]
  | succ f₁ ih =>
    intro l fuel₂ n h1 h2
    cases n with
    | zero => rw [chunkArrayGo_zero, chunkArrayGo_zero]
    | succ m =>
      cases l with
      | nil => rw [chunkArrayGo_nil, chunkArrayGo_nil]
      | cons x xs =>
        cases fuel₂ with
        | zero => simp at h2
        | succ f₂ =>
          show ((x :: xs).take (m + 1) :: chunkArrayGo f₁ ((x :: xs).drop (m + 1)) (m + 1)) =
            ((x :: xs).take (m + 1) :: chunkArrayGo f₂ ((x :: xs).drop (m + 1)) (m + 1))
          have hlen : ((x :: xs).drop (m + 1)).length ≤ f₁ := by
            simp only [List.length_drop, List.length_cons]
            simp only [List.length_cons] at h1
            omega
          have hlen2 : ((x :: xs).drop (m + 1)).length ≤ f₂ := by
            simp only [List.length_drop, List.length_cons]
            simp only [List.length_cons] at h2
            omega
          rw [ih _ f₂ (m + 1) hlen hlen2]

theorem chunkArray_nil (n : Nat) : chunkArray ([] : List α) n = [] := by
  cases n with
  | zero => exact chunkArrayGo_zero _ _
  | succ m => exact chunkArrayGo_nil _ _

theorem chunkArray_cons (x : α) (xs : List α) (n : Nat) :
    chunkArray (x :: xs) (n + 1) =
      (x :: xs).take (n + 1) :: chunkArray ((x :: xs).drop (n + 1)) (n + 1) := by
  show chunkArrayGo (xs.length + 1) (x :: xs) (n + 1) = _
  show ((x :: xs).take (n + 1) :: chunkArrayGo xs.length ((x :: xs).drop (n + 1)) (n + 1)) = _
  congr 1
  apply chunkArrayGo_congr
  · simp only [List.length_drop, List.length_cons]
    omega
  · exact Nat.le_refl _

theorem chunkArray_eq_cons {l : List α} (h : l ≠ []) (n : Nat) :
    chunkArray l (n + 1) = l.take (n + 1) :: chunkArray (l.drop (n + 1)) (n + 1) := by
  cases l with
  | nil => exact absurd rfl h
  | cons x xs => exact chunkArray_cons x xs n

theorem chunkArray_ne_nil {l : List α} (h : l ≠ []) (n : Nat) :
    chunkArray l (n + 1) ≠ [] := by
  rw [chunkArray_eq_cons h]
  exact List.cons_ne_nil _ _

theorem chunkArray_flatten (n : Nat) : ∀ l : List α, (chunkArray l (n + 1)).flatten = l
  | [] => by rw [chunkArray_nil]; rfl
  | x :: xs => by
    rw [chunkArray_cons]
    show (x :: xs).take (n + 1) ++ (chunkArray ((x :: xs).drop (n + 1)) (n + 1)).flatten = x :: xs
    rw [chunkArray_flatten n ((x :: xs).drop (n + 1))]
    exact List.take_append_drop _ _
termination_by l => l.length
decreasing_by
  simp only [List.drop_succ_cons, List.length_drop, List.length_cons]
  omega

theorem chunkArray_dropLast_length (n : Nat) :
    ∀ l : List α, ∀ c ∈ (chunkArray l (n + 1)).dropLast, c.length = n + 1
  | [] => by rw [chunkArray_nil]; intro c hc; simp at hc
  | x :: xs => by
    rw [chunkArray_cons]
    by_cases hd : (x :: xs).drop (n + 1) = []
    · rw [hd, chunkArray_nil]
      intro c hc
      simp at hc
    · have hne := chunkArray_ne_nil hd n
      rw [List.dropLast_cons_of_ne_nil hne]
      intro c hc
      rcases List.mem_cons.mp hc with h1 | h2
      · subst h1
        rw [List.length_take]
        have hlong : n + 1 < (x :: xs).length := by
          by_contra hle
          push_neg at hle
          exact hd (List.drop_eq_nil_of_le hle)
        omega
      · exact chunkArray_dropLast_length n ((x :: xs).drop (n + 1)) c h2
termination_by l => l.length
decreasing_by
  simp only [List.drop_succ_cons, List.length_drop, List.length_cons]
  omega

theorem runChunks_records (env : Env) :
    ∀ (cs : List (List String)) (cache : Cache),
      (runChunks env cache cs).records = (resolveList env cache cs.flatten).1 ∧
      (runChunks env cache cs).cache = (resolveList env cache cs.flatten).2 := by
  intro cs
  induction cs with
  | nil => intro cache; exact ⟨rfl, rfl⟩
  | cons c cs ih =>
    intro cache
    have happ := resolveList_append env c cs.flatten cache
    constructor
    · show (resolveList env cache c).1 ++ (runChunks env (resolveList env cache c).2 cs).records =
        (resolveList env cache ((c :: cs).flatten)).1
      rw [(ih _).1]
      show _ = (resolveList env cache (c ++ cs.flatten)).1
      rw [happ]
    · show (runChunks env (resolveList env cache c).2 cs).cache =
        (resolveList env cache ((c :: cs).flatten)).2
      rw [(ih _).2]
      show _ = (resolveList env cache (c ++ cs.flatten)).2
      rw [happ]

theorem checkWarrantyBatch_records (env : Env) (cache : Cache) (serials : List String) :
    (checkWarrantyBatch env cache serials).records =
      (resolveList env cache serials).1 := by
  unfold checkWarrantyBatch
  rw [(runChunks_records env (chunkArray serials 10) cache).1]
  rw [show (10 : Nat) = 9 + 1 from rfl, chunkArray_flatten]

theorem runChunks_trace_adjacent (env : Env) :
    ∀ (cs : List (List String)) (cache : Cache) (i : Nat) (ci cj : List String),
      cs.get? i = some ci → cs.get? (i + 1) = some cj →
      ∃ A B, (runChunks env cache cs).trace =
        A ++ ci.map Effect.lookup ++ Effect.delay 2000 :: (cj.map Effect.lookup ++ B) := by
  intro cs
  induction cs with
  | nil =>
    intro cache i ci cj hi hj
    simp at hi
  | cons c cs ih =>
    intro cache i ci cj hi hj
    cases i with
    | zero =>
      simp only [List.get?_cons_zero, Option.some.injEq] at hi
      subst hi
      simp only [List.get?_cons_succ, List.get?_cons_zero] at hj
      cases cs with
      | nil => simp at hj
      | cons c' cs' =>
        simp only [List.get?_cons_zero, Option.some.injEq] at hj
        subst hj
        refine ⟨[], Effect.delay 2000 ::
          (runChunks env (resolveList env (resolveList env cache c).2 c').2 cs').trace, ?_⟩
        show c.map Effect.lookup ++ Effect.delay 2000 ::
            (c'.map Effect.lookup ++ Effect.delay 2000 ::
              (runChunks env (resolveList env (resolveList env cache c).2 c').2 cs').trace) = _
        simp
    | succ m =>
      simp only [List.get?_cons_succ] at hi hj
      obtain ⟨A, B, hAB⟩ := ih (resolveList env cache c).2 m ci cj hi hj
      refine ⟨c.map Effect.lookup ++ Effect.delay 2000 :: A, B, ?_⟩
      show c.map Effect.lookup ++ Effect.delay 2000 ::
          (runChunks env (resolveList env cache c).2 cs).trace = _
      rw [hAB]
      simp

theorem statusOfDays_neg {days : Int} (h : days < 0) : statusOfDays days = .expired := by
  unfold statusOfDays
  rw [if_pos h]

theorem statusOfDays_soon {days : Int} (h0 : 0 ≤ days) (h30 : days ≤ 30) :
    statusOfDays days = .expiringSoon := by
  unfold statusOfDays
  rw [if_neg (by omega), if_pos h30]

theorem statusOfDays_far {days : Int} (h : 30 < days) : statusOfDays days = .active := by
  unfold statusOfDays
  rw [if_neg (by omega), if_neg (by omega)]

theorem chunkArray_flatten' (l : List α) {size : Nat} (hs : 0 < size) :
    (chunkArray l size).flatten = l := by
  cases size with
  | zero => omega
  | succ n => exact chunkArray_flatten n l

theorem chunkArray_dropLast_length' (l : List α) {size : Nat} (hs : 0 < size) :
    ∀ c ∈ (chunkArray l size).dropLast, c.length = size := by
  cases size with
  | zero => omega
  | succ n => exact chunkArray_dropLast_length n l

/-! Claim theorems. -/

/-- C1, corrected, counterexample: the claim says that a malformed payload —
anything short of a status success payload with a complete data.warranty
object — is treated as unavailable (null).  But a delivered payload with
status success and a data object that lacks the warranty object makes
tryApiMethod return a WarrantyRecord with status Not Found instead of
null, so the scrape fallback is not triggered for it. -/
theorem claim_C1_counterexample :
    tryApiMethod "ABC123" (Except.ok { status := "success", data := some {} })
        (fun _ => 0) 0 ≠ none ∧
    tryApiMethod "ABC123" (Except.ok { status := "success", data := some {} })
        (fun _ => 0) 0 =
      some { serialNumber := "ABC123", warrantyStatus := WarrantyStatus.notFound } := by
  constructor
  · decide
  · decide

/-- C1, amended: tryApiMethod treats any thrown failure (network failure,
timeout, non-2xx HTTP status), any payload whose status field is not
success, and any payload without a data object as unavailable (null); a
status success payload with a data object always yields a WarrantyRecord —
with status Not Found when data.warranty is missing, and with the parsed
warranty fields when data.warranty is present. -/
theorem claim_C1 (S : String) (dv : String → Int) (t : Int) :
    (∀ e : String, tryApiMethod S (Except.error e) dv t = none) ∧
    (∀ resp : LenovoApiResponse, resp.status ≠ "success" →
      tryApiMethod S (Except.ok resp) dv t = none) ∧
    (∀ resp : LenovoApiResponse, resp.data = none →
      tryApiMethod S (Except.ok resp) dv t = none) ∧
    (∀ (resp : LenovoApiResponse) (dd : ApiData),
      resp.status = "success" → resp.data = some dd → dd.warranty = none →
      tryApiMethod S (Except.ok resp) dv t =
        some { serialNumber := S, warrantyStatus := WarrantyStatus.notFound }) ∧
    (∀ (resp : LenovoApiResponse) (dd : ApiData) (w : ApiWarranty),
      resp.status = "success" → resp.data = some dd → dd.warranty = some w →
      tryApiMethod S (Except.ok resp) dv t =
        some { serialNumber := S
               productName := dd.product
               warrantyStartDate := some w.startDate
               warrantyEndDate := some w.endDate
               daysRemaining := some (computeDaysRemaining (dv w.endDate) t)
               warrantyStatus := statusOfDays (computeDaysRemaining (dv w.endDate) t)
               warrantyType := some w.type }) := by
  refine ⟨fun e => rfl, ?_, ?_, ?_, ?_⟩
  · intro resp h
    show (if resp.status = "success" ∧ resp.data.isSome = true then
        some (parseApiResponse S resp dv t) else none) = none
    rw [if_neg]
    intro hc
    exact h hc.1
  · intro resp h
    show (if resp.status = "success" ∧ resp.data.isSome = true then
        some (parseApiResponse S resp dv t) else none) = none
    rw [if_neg]
    intro hc
    rw [h] at hc
    exact Bool.false_ne_true hc.2
  · intro resp dd h1 h2 h3
    show (if resp.status = "success" ∧ resp.data.isSome = true then
        some (parseApiResponse S resp dv t) else none) = _
    rw [if_pos ⟨h1, by rw [h2]; rfl⟩]
    simp only [parseApiResponse, h2, h3]
  · intro resp dd w h1 h2 h3
    show (if resp.status = "success" ∧ resp.data.isSome = true then
        some (parseApiResponse S resp dv t) else none) = _
    rw [if_pos ⟨h1, by rw [h2]; rfl⟩]
    simp only [parseApiResponse, h2, h3]

/-- C1 witness: a thrown network failure and a non-success payload are both
treated as unavailable at a concrete serial. -/
theorem claim_C1_witness :
    tryApiMethod "ABC123" (Except.error "connection refused") (fun _ => 0) 0 = none ∧
    tryApiMethod "ABC123" (Except.ok { status := "failed" }) (fun _ => 0) 0 = none :=
  ⟨(claim_C1 "ABC123" (fun _ => 0) 0).1 "connection refused",
   (claim_C1 "ABC123" (fun _ => 0) 0).2.1 { status := "failed" } (by decide)⟩

/-- C2, confirmed: with an end date present, daysRemaining is the ceiling of
the day difference between the end date and today, and the status is
Expired when negative, Expiring Soon between 0 and 30, Active above 30;
with no end date, an error indicator gives Error and otherwise Not Found.
This holds on the scrape path and, for the date arithmetic and three-way
classification, identically on the structured path. -/
theorem claim_C2 (dv : String → Int) (t : Int) :
    (∀ (S : String) (d : ScrapedData), d.warrantyEndDate ≠ "" →
      (buildScrapeRecord S d dv t).daysRemaining =
        some ⌈((dv d.warrantyEndDate - t : Int) : ℚ) / (86400000 : ℚ)⌉ ∧
      (computeDaysRemaining (dv d.warrantyEndDate) t < 0 →
        (buildScrapeRecord S d dv t).warrantyStatus = WarrantyStatus.expired) ∧
      (0 ≤ computeDaysRemaining (dv d.warrantyEndDate) t →
        computeDaysRemaining (dv d.warrantyEndDate) t ≤ 30 →
        (buildScrapeRecord S d dv t).warrantyStatus = WarrantyStatus.expiringSoon) ∧
      (30 < computeDaysRemaining (dv d.warrantyEndDate) t →
        (buildScrapeRecord S d dv t).warrantyStatus = WarrantyStatus.active)) ∧
    (∀ (S : String) (d : ScrapedData), d.warrantyEndDate = "" → d.errorMessage ≠ "" →
      (buildScrapeRecord S d dv t).warrantyStatus = WarrantyStatus.error ∧
      (buildScrapeRecord S d dv t).daysRemaining = none) ∧
    (∀ (S : String) (d : ScrapedData), d.warrantyEndDate = "" → d.errorMessage = "" →
      (buildScrapeRecord S d dv t).warrantyStatus = WarrantyStatus.notFound ∧
      (buildScrapeRecord S d dv t).daysRemaining = none) ∧
    (∀ (S : String) (resp : LenovoApiResponse) (dd : ApiData) (w : ApiWarranty),
      resp.data = some dd → dd.warranty = some w →
      (parseApiResponse S resp dv t).daysRemaining =
        some ⌈((dv w.endDate - t : Int) : ℚ) / (86400000 : ℚ)⌉ ∧
      (computeDaysRemaining (dv w.endDate) t < 0 →
        (parseApiResponse S resp dv t).warrantyStatus = WarrantyStatus.expired) ∧
      (0 ≤ computeDaysRemaining (dv w.endDate) t →
        computeDaysRemaining (dv w.endDate) t ≤ 30 →
        (parseApiResponse S resp dv t).warrantyStatus = WarrantyStatus.expiringSoon) ∧
      (30 < computeDaysRemaining (dv w.endDate) t →
        (parseApiResponse S resp dv t).warrantyStatus = WarrantyStatus.active)) := by
  refine ⟨?_, ?_, ?_, ?_⟩
  · intro S d hend
    have hb : (buildScrapeRecord S d dv t).daysRemaining =
        some (computeDaysRemaining (dv d.warrantyEndDate) t) ∧
        (buildScrapeRecord S d dv t).warrantyStatus =
          statusOfDays (computeDaysRemaining (dv d.warrantyEndDate) t) := by
      unfold buildScrapeRecord
      rw [if_pos hend]
      exact ⟨rfl, rfl⟩
    refine ⟨?_, ?_, ?_, ?_⟩
    · rw [hb.1, computeDaysRemaining_eq_ceil]
    · intro h; rw [hb.2, statusOfDays_neg h]
    · intro h0 h30; rw [hb.2, statusOfDays_soon h0 h30]
    · intro h; rw [hb.2, statusOfDays_far h]
  · intro S d hend herr
    unfold buildScrapeRecord
    rw [if_neg (by simp [hend])]
    refine ⟨?_, rfl⟩
    show (if d.errorMessage ≠ "" then WarrantyStatus.error else WarrantyStatus.notFound) =
      WarrantyStatus.error
    rw [if_pos herr]
  · intro S d hend herr
    unfold buildScrapeRecord
    rw [if_neg (by simp [hend])]
    refine ⟨?_, rfl⟩
    show (if d.errorMessage ≠ "" then WarrantyStatus.error else WarrantyStatus.notFound) =
      WarrantyStatus.notFound
    rw [if_neg (by simp [herr])]
  · intro S resp dd w h1 h2
    have hp : (parseApiResponse S resp dv t).daysRemaining =
        some (computeDaysRemaining (dv w.endDate) t) ∧
        (parseApiResponse S resp dv t).warrantyStatus =
          statusOfDays (computeDaysRemaining (dv w.endDate) t) := by
      unfold parseApiResponse
      rw [h1]
      simp [h2]
    refine ⟨?_, ?_, ?_, ?_⟩
    · rw [hp.1, computeDaysRemaining_eq_ceil]
    · intro h; rw [hp.2, statusOfDays_neg h]
    · intro h0 h30; rw [hp.2, statusOfDays_soon h0 h30]
    · intro h; rw [hp.2, statusOfDays_far h]

/-- C2 witness: an extracted end date 45 days out classifies as Active, one
10 days out as Expiring Soon, yesterday's as Expired, an empty extraction
as Not Found, and an empty extraction with an error indicator as Error. -/
theorem claim_C2_witness :
    (buildScrapeRecord "ABC123" { warrantyEndDate := "2026-01-01" }
        (fun _ => 86400000 * 45) 0).warrantyStatus = WarrantyStatus.active ∧
    (buildScrapeRecord "ABC123" { warrantyEndDate := "2026-01-01" }
        (fun _ => 86400000 * 10) 0).warrantyStatus = WarrantyStatus.expiringSoon ∧
    (buildScrapeRecord "ABC123" { warrantyEndDate := "2026-01-01" }
        (fun _ => -86400000) 0).warrantyStatus = WarrantyStatus.expired ∧
    (buildScrapeRecord "ABC123" {} (fun _ => 0) 0).warrantyStatus =
      WarrantyStatus.notFound ∧
    (buildScrapeRecord "ABC123" { errorMessage := "No record" }
        (fun _ => 0) 0).warrantyStatus = WarrantyStatus.error :=
  ⟨((claim_C2 (fun _ => 86400000 * 45) 0).1 "ABC123" _ (by decide)).2.2.2 (by decide),
   ((claim_C2 (fun _ => 86400000 * 10) 0).1 "ABC123" _ (by decide)).2.2.1 (by decide) (by decide),
   ((claim_C2 (fun _ => -86400000) 0).1 "ABC123" _ (by decide)).2.1 (by decide),
   ((claim_C2 (fun _ => 0) 0).2.2.1 "ABC123" {} rfl rfl).1,
   ((claim_C2 (fun _ => 0) 0).2.1 "ABC123" _ rfl (by decide)).1⟩

/-- C7, confirmed: chunkArray with size 10 preserves order and content (the
chunks concatenate back to the input), every chunk except possibly the
last has size exactly 10, and any batch of 25 serials yields exactly 3
chunks of sizes 10, 10, 5. -/
theorem claim_C7 (l : List String) :
    (chunkArray l 10).flatten = l ∧
    (∀ c ∈ (chunkArray l 10).dropLast, c.length = 10) ∧
    (∀ l25 : List String, l25.length = 25 →
      (chunkArray l25 10).map List.length = [10, 10, 5]) := by
  refine ⟨chunkArray_flatten' l (by norm_num),
    chunkArray_dropLast_length' l (by norm_num), ?_⟩
  intro l25 h25
  have h1 : l25 ≠ [] := by
    intro h
    rw [h] at h25
    simp at h25
  have e10 : (10 : Nat) = 9 + 1 := rfl
  have hd1 : l25.drop 10 ≠ [] := by
    intro h
    have := congrArg List.length h
    simp [List.length_drop, h25] at this
  have hd2 : (l25.drop 10).drop 10 ≠ [] := by
    intro h
    have := congrArg List.length h
    simp [List.length_drop, h25] at this
  have hd3 : (((l25.drop 10).drop 10)).drop 10 = [] := by
    apply List.drop_eq_nil_of_le
    simp [List.length_drop, h25]
  rw [e10, chunkArray_eq_cons h1, chunkArray_eq_cons hd1, chunkArray_eq_cons hd2,
    hd3, chunkArray_nil]
  simp [List.length_take, List.length_drop, h25]

/-- C7 witness: a concrete batch of 25 serials yields chunk sizes 10, 10, 5. -/
theorem claim_C7_witness :
    (chunkArray (List.replicate 25 "SER123") 10).map List.length = [10, 10, 5] :=
  (claim_C7 (List.replicate 25 "SER123")).2.2 (List.replicate 25 "SER123") (by decide)

/-- C3, corrected, counterexample: when the first checkSingleWarranty call
ends in the catch block (structured attempt unavailable, scrape pipeline
throwing), its Error record is not cached, so the second consecutive call
does invoke the source clients again — refuting the claim that the second
call invokes neither client for every serial. -/
theorem claim_C3_counterexample :
    (checkSingleWarranty envDown
        (checkSingleWarranty envDown [] "ABC123").cache "ABC123").calls ≠ [] := by
  decide

/-- C3, amended: two consecutive checkSingleWarranty calls for the same
serial within the cache TTL return identical records, and — provided the
first call did not end in the exception-to-Error catch path — the second
call invokes neither the structured client nor the scrape client. -/
theorem claim_C3 (env : Env) (cache : Cache) (S : String) :
    (checkSingleWarranty env (checkSingleWarranty env cache S).cache S).record =
      (checkSingleWarranty env cache S).record ∧
    (firstCallCatches env cache S = false →
      (checkSingleWarranty env (checkSingleWarranty env cache S).cache S).calls = []) := by
  cases hm : cacheGet cache (warrantyKey S) with
  | some r =>
    have h1 := checkSingleWarranty_hit env hm
    simp [h1]
  | none =>
    cases ha : tryApiMethod S (env.api S) env.dateValue env.today with
    | some r =>
      have h1 := checkSingleWarranty_api hm ha
      have h2 := checkSingleWarranty_hit env
        (cacheGet_set_self cache (warrantyKey S) r)
      rw [h1]
      show (checkSingleWarranty env (cacheSet cache (warrantyKey S) r) S).record = r ∧ _
      rw [h2]
      exact ⟨rfl, fun _ => rfl⟩
    | none =>
      cases hs : env.scrape S with
      | ok d =>
        have h1 := checkSingleWarranty_scrape_ok hm ha hs
        have h2 := checkSingleWarranty_hit env
          (cacheGet_set_self cache (warrantyKey S)
            (buildScrapeRecord S d env.dateValue env.today))
        rw [h1]
        show (checkSingleWarranty env
            (cacheSet cache (warrantyKey S) (buildScrapeRecord S d env.dateValue env.today))
            S).record = buildScrapeRecord S d env.dateValue env.today ∧ _
        rw [h2]
        exact ⟨rfl, fun _ => rfl⟩
      | error msg =>
        have h1 := checkSingleWarranty_scrape_error hm ha hs
        constructor
        · simp [h1]
        · intro hf
          exfalso
          simp [firstCallCatches, scrapeThrows, hm, ha, hs] at hf

/-- C3 witness: with a successfully scraping environment, the second call
returns the first call's record from the cache and touches no client. -/
theorem claim_C3_witness :
    (checkSingleWarranty envOk (checkSingleWarranty envOk [] "ABC123").cache "ABC123").record =
      (checkSingleWarranty envOk [] "ABC123").record ∧
    (checkSingleWarranty envOk (checkSingleWarranty envOk [] "ABC123").cache "ABC123").calls = [] :=
  ⟨(claim_C3 envOk [] "ABC123").1, (claim_C3 envOk [] "ABC123").2 (by decide)⟩

/-- C6, confirmed: on a cache miss where the structured attempt yields null,
checkSingleWarranty invokes the scrape client exactly once for that
serial, whether the scrape succeeds or throws. -/
theorem claim_C6 (env : Env) (cache : Cache) (S : String)
    (hm : cacheGet cache (warrantyKey S) = none)
    (ha : tryApiMethod S (env.api S) env.dateValue env.today = none) :
    (checkSingleWarranty env cache S).calls.count (SourceCall.scrapeCall S) = 1 := by
  cases hs : env.scrape S with
  | ok d =>
    rw [checkSingleWarranty_scrape_ok hm ha hs]
    simp [List.count_cons]
  | error msg =>
    rw [checkSingleWarranty_scrape_error hm ha hs]
    simp [List.count_cons]

/-- C6 witness: a concrete cache miss with an unreachable structured
endpoint scrapes exactly once. -/
theorem claim_C6_witness :
    (checkSingleWarranty envOk [] "ABC123").calls.count
      (SourceCall.scrapeCall "ABC123") = 1 :=
  claim_C6 envOk [] "ABC123" rfl rfl

/-- C9, confirmed: for every serial, checkSingleWarranty returns a record
whose serialNumber equals the looked-up serial, on every path — cache hit
(using the invariant that cached records sit under their own serial's
key), structured-source success, scrape result, and the
exception-to-Error conversion; the proof is by cases on these paths. -/
theorem claim_C9 (env : Env) (cache : Cache) (S : String) (hwf : cacheWF cache) :
    (checkSingleWarranty env cache S).record.serialNumber = S :=
  checkSingleWarranty_serialNumber env hwf S

/-- C9 witness: a concrete lookup on the empty cache returns a record for
the requested serial. -/
theorem claim_C9_witness :
    (checkSingleWarranty envOk [] "ABC123").record.serialNumber = "ABC123" :=
  claim_C9 envOk [] "ABC123" cacheWF_nil

/-- C10, confirmed: when checkSingleWarranty converts a caught exception
into an Error record, the cache is left unchanged — the Error record is
not written — and a subsequent call for the same serial re-invokes both
source clients instead of returning a cached Error. -/
theorem claim_C10 (env : Env) (cache : Cache) (S msg : String)
    (hm : cacheGet cache (warrantyKey S) = none)
    (ha : tryApiMethod S (env.api S) env.dateValue env.today = none)
    (hs : env.scrape S = .error msg) :
    (checkSingleWarranty env cache S).record =
      { serialNumber := S, warrantyStatus := WarrantyStatus.error,
        errorMessage := some msg } ∧
    (checkSingleWarranty env cache S).cache = cache ∧
    (checkSingleWarranty env (checkSingleWarranty env cache S).cache S).calls =
      [SourceCall.apiCall S, SourceCall.scrapeCall S] := by
  have h1 := checkSingleWarranty_scrape_error hm ha hs
  refine ⟨by rw [h1], by rw [h1], ?_⟩
  simp [h1]

/-- C10 witness: a concrete throwing scrape leaves the cache empty and the
next call re-invokes both clients. -/
theorem claim_C10_witness :
    (checkSingleWarranty envDown [] "ABC123").record =
      { serialNumber := "ABC123", warrantyStatus := WarrantyStatus.error,
        errorMessage := some "browser crash" } ∧
    (checkSingleWarranty envDown [] "ABC123").cache = [] ∧
    (checkSingleWarranty envDown (checkSingleWarranty envDown [] "ABC123").cache
        "ABC123").calls =
      [SourceCall.apiCall "ABC123", SourceCall.scrapeCall "ABC123"] :=
  claim_C10 envDown [] "ABC123" "browser crash" rfl rfl rfl

/-- C5, confirmed: for every input list, the batch result has exactly one
record per input serial, in input order — the i-th record is the record
for the i-th serial.  The records equal the in-order per-serial resolution
of the flat input list, independently of the chunk boundaries, and within
a chunk Promise.all keeps results in map order regardless of which lookup
finishes first. -/
theorem claim_C5 (env : Env) (cache : Cache) (serials : List String)
    (hwf : cacheWF cache) :
    (checkWarrantyBatch env cache serials).records.length = serials.length ∧
    (checkWarrantyBatch env cache serials).records = (resolveList env cache serials).1 ∧
    (∀ (i : Nat) (r : WarrantyInfo) (s : String),
      (checkWarrantyBatch env cache serials).records.get? i = some r →
      serials.get? i = some s → r.serialNumber = s) := by
  have hrec := checkWarrantyBatch_records env cache serials
  refine ⟨?_, hrec, ?_⟩
  · rw [hrec]
    exact resolveList_length env serials cache
  · intro i r s h1 h2
    rw [hrec] at h1
    exact resolveList_get?_serialNumber env serials cache hwf i r s h1 h2

/-- C5 witness: a concrete two-serial batch returns two records, and the
first record is the one for the first serial. -/
theorem claim_C5_witness :
    (checkWarrantyBatch envOk [] ["AAA111", "BBB222"]).records.length = 2 ∧
    ({ serialNumber := "AAA111", warrantyStatus := WarrantyStatus.notFound } :
      WarrantyInfo).serialNumber = "AAA111" :=
  ⟨(claim_C5 envOk [] ["AAA111", "BBB222"] cacheWF_nil).1,
   (claim_C5 envOk [] ["AAA111", "BBB222"] cacheWF_nil).2.2 0
     { serialNumber := "AAA111", warrantyStatus := WarrantyStatus.notFound }
     "AAA111" (by decide) (by decide)⟩

/-- C4, confirmed: if the scrape client throws for one serial of a batch
(and the structured attempt is unavailable for it), the batch still
returns one record per input serial, the failing serial's entry is
exactly the catch-produced record with status Error and the exception's
message, and every other entry is what the same batch without the failing
serial would have produced.  No exception propagates out of
checkSingleWarranty: it is a total function whose catch branch produces
the Error record. -/
theorem claim_C4 (env : Env) (cache : Cache) (pre post : List String)
    (s msg : String)
    (hs : env.scrape s = .error msg)
    (ha : tryApiMethod s (env.api s) env.dateValue env.today = none)
    (hc : cacheGet cache (warrantyKey s) = none)
    (hpre : s ∉ pre) :
    (checkWarrantyBatch env cache (pre ++ s :: post)).records.length =
      (pre ++ s :: post).length ∧
    (checkWarrantyBatch env cache (pre ++ s :: post)).records.get? pre.length =
      some { serialNumber := s, warrantyStatus := WarrantyStatus.error,
             errorMessage := some msg } ∧
    (∀ i, i < pre.length →
      (checkWarrantyBatch env cache (pre ++ s :: post)).records.get? i =
        (checkWarrantyBatch env cache (pre ++ post)).records.get? i) ∧
    (∀ i, (checkWarrantyBatch env cache (pre ++ s :: post)).records.get?
        (pre.length + 1 + i) =
      (checkWarrantyBatch env cache (pre ++ post)).records.get? (pre.length + i)) := by
  have hkey : ∀ s' ∈ pre, warrantyKey s' ≠ warrantyKey s := by
    intro s' hmem heq
    exact hpre ((warrantyKey_inj heq) ▸ hmem)
  have hmiss : cacheGet (resolveList env cache pre).2 (warrantyKey s) = none := by
    rw [resolveList_cacheGet_ne env pre hkey cache]
    exact hc
  have hsingle := checkSingleWarranty_scrape_error hmiss ha hs
  have hbig : (checkWarrantyBatch env cache (pre ++ s :: post)).records =
      (resolveList env cache pre).1 ++
        ({ serialNumber := s, warrantyStatus := WarrantyStatus.error,
           errorMessage := some msg } ::
          (resolveList env (resolveList env cache pre).2 post).1) := by
    rw [checkWarrantyBatch_records, resolveList_append env pre (s :: post) cache]
    show (resolveList env cache pre).1 ++
        (resolveList env (resolveList env cache pre).2 (s :: post)).1 = _
    congr 1
    show (checkSingleWarranty env (resolveList env cache pre).2 s).record ::
        (resolveList env
          (checkSingleWarranty env (resolveList env cache pre).2 s).cache post).1 = _
    rw [hsingle]
  have hsmall : (checkWarrantyBatch env cache (pre ++ post)).records =
      (resolveList env cache pre).1 ++
        (resolveList env (resolveList env cache pre).2 post).1 := by
    rw [checkWarrantyBatch_records, resolveList_append env pre post cache]
  have hplen : (resolveList env cache pre).1.length = pre.length :=
    resolveList_length env pre cache
  refine ⟨?_, ?_, ?_, ?_⟩
  · rw [hbig]
    simp [hplen, resolveList_length env post]
  · rw [hbig, List.get?_append_right (le_of_eq hplen)]
    have e0 : pre.length - (resolveList env cache pre).1.length = 0 := by
      rw [hplen]
      omega
    rw [e0]
    rfl
  · intro i hi
    rw [hbig, hsmall, List.get?_append (by rw [hplen]; exact hi),
      List.get?_append (by rw [hplen]; exact hi)]
  · intro i
    rw [hbig, hsmall, List.get?_append_right (by rw [hplen]; omega),
      List.get?_append_right (by rw [hplen]; omega)]
    have e1 : pre.length + 1 + i - (resolveList env cache pre).1.length = i + 1 := by
      rw [hplen]
      omega
    have e2 : pre.length + i - (resolveList env cache pre).1.length = i := by
      rw [hplen]
      omega
    rw [e1, e2, List.get?_cons_succ]

/-- C4 witness: in a concrete three-serial batch whose middle serial's
scrape throws, the batch returns 3 records, the middle entry is the Error
record with the exception's message, and the last entry matches the batch
without the failing serial. -/
theorem claim_C4_witness :
    (checkWarrantyBatch envMixed [] ["AAA111", "BBB222", "CCC333"]).records.length = 3 ∧
    (checkWarrantyBatch envMixed [] ["AAA111", "BBB222", "CCC333"]).records.get? 1 =
      some { serialNumber := "BBB222", warrantyStatus := WarrantyStatus.error,
             errorMessage := some "browser crash" } ∧
    (checkWarrantyBatch envMixed [] ["AAA111", "BBB222", "CCC333"]).records.get? 2 =
      (checkWarrantyBatch envMixed [] ["AAA111", "CCC333"]).records.get? 1 :=
  have h := claim_C4 envMixed [] ["AAA111"] ["CCC333"] "BBB222" "browser crash"
    rfl rfl rfl (by decide)
  ⟨h.1, h.2.1, h.2.2.2 0⟩

/-- C8, confirmed: in the effect trace of checkWarrantyBatch, a delay(2000)
step sits between any two consecutive chunks — it occurs after all
lookups of chunk i and before any lookup of chunk i + 1.  (The source
also awaits a trailing delay after the last chunk, which the claim does
not exclude.) -/
theorem claim_C8 (env : Env) (cache : Cache) (serials : List String) (i : Nat)
    (ci cj : List String)
    (hi : (chunkArray serials 10).get? i = some ci)
    (hj : (chunkArray serials 10).get? (i + 1) = some cj) :
    ∃ A B, (checkWarrantyBatch env cache serials).trace =
      A ++ ci.map Effect.lookup ++ Effect.delay 2000 :: (cj.map Effect.lookup ++ B) :=
  runChunks_trace_adjacent env (chunkArray serials 10) cache i ci cj hi hj

/-- C8 witness: a concrete 12-serial batch is processed as a 10-chunk, a
delay(2000), then the 2-chunk. -/
theorem claim_C8_witness :
    ∃ A B, (checkWarrantyBatch envOk [] (List.replicate 12 "SER123")).trace =
      A ++ (List.replicate 10 "SER123").map Effect.lookup ++ Effect.delay 2000 ::
        ((List.replicate 2 "SER123").map Effect.lookup ++ B) :=
  claim_C8 envOk [] (List.replicate 12 "SER123") 0 (List.replicate 10 "SER123")
    (List.replicate 2 "SER123") (by decide) (by decide)

end LenovoWarrantyChecker
